import Mathlib

/-
Verification of montage_maker.py: a command-line tool that batches a
directory's image files into grid montage pages by invoking an external
composition tool once per page.

The embedding below translates the script's pure logic into Lean:
  * grid parsing (create_montages step 1, lines 50-57),
  * pagination arithmetic (lines 66-76),
  * output-filename formatting (line 78),
  * external-command construction (lines 80-98),
  * the per-page subprocess loop with its error handling (lines 100-111),
  * the layered settings resolver of the __main__ block (lines 148-174).
Filesystem access (get_all_images, config.ini loading) and the external
tool are modelled as parameters: the list of image files, a loadConfig
oracle, and a tool oracle mapping an argument list to an exit behaviour.
Python machine-level details are modelled exactly where the claims need
them; int() is modelled as optional surrounding whitespace (CPython's
whitespace set restricted to the ASCII range), an optional sign, and a
PEP 515 digit run (decimal digits with single underscores strictly
between digits), and str.lower() as ASCII lowering.  On strings of
ASCII characters this is exactly CPython's behaviour; Unicode numerals
and Unicode-only whitespace are outside the model, and the one claim
that quantifies over the parse-failure set (C1) carries an explicit
ASCII hypothesis marking that boundary.
-/

namespace MontageMaker

/-! ### Python string splitting: s.split('x') keeps empty parts. -/

/-- Embedding of Python str.split with an explicit one-character
separator: splits at every occurrence and keeps empty fragments, so the
result on an input with k separators has k+1 parts. -/
def splitOnChar (sep : Char) : List Char → List (List Char)
  | [] => [[]]
  | a :: rest =>
    if a = sep then [] :: splitOnChar sep rest
    else
      match splitOnChar sep rest with
      | [] => [[a]]
      | h :: t => (a :: h) :: t

/-! ### Python int() on a string. -/

def isDigitChar (c : Char) : Bool := 48 ≤ c.toNat && c.toNat ≤ 57

/-- CPython's str.isspace characters in the ASCII range: HT LF VT FF
CR (0x09-0x0D), the four information separators (0x1C-0x1F), and the
space (0x20). -/
def pyAsciiSpace (c : Char) : Bool :=
  (9 ≤ c.toNat && c.toNat ≤ 13) || (28 ≤ c.toNat && c.toNat ≤ 31) || c.toNat = 32

/-- Numeric value of a digit run, most significant first. -/
def decValue (cs : List Char) : ℕ :=
  cs.foldl (fun a c => a * 10 + (c.toNat - 48)) 0

/-- A PEP 515 digit run: one or more decimal digits, with single
underscores allowed strictly between two digits (so no leading or
trailing underscore and no doubled underscore). -/
def pyDigitRun : List Char → Bool
  | [] => false
  | [c] => isDigitChar c
  | c :: '_' :: rest => isDigitChar c && pyDigitRun rest
  | c :: rest => isDigitChar c && pyDigitRun rest

/-- A PEP 515 digit run parses to the value of its digits with the
underscores removed; anything else fails. -/
def parseNatDigits (cs : List Char) : Option ℕ :=
  if pyDigitRun cs then some (decValue (cs.filter (fun c => c != '_'))) else none

/-- Strip leading and trailing whitespace, as int() does. -/
def stripWs (l : List Char) : List Char :=
  ((l.dropWhile pyAsciiSpace).reverse.dropWhile pyAsciiSpace).reverse

/-- Embedding of Python int(s): optional whitespace, optional sign,
then a PEP 515 digit run; raises (here: none) otherwise.  On ASCII
strings this is exactly CPython's int(); Unicode numerals and
Unicode-only whitespace are not modelled. -/
def parsePyInt (cs : List Char) : Option ℤ :=
  match stripWs cs with
  | '-' :: rest => (parseNatDigits rest).map (fun n => -(n : ℤ))
  | '+' :: rest => (parseNatDigits rest).map (fun n => (n : ℤ))
  | t => (parseNatDigits t).map (fun n => (n : ℤ))

/-- Lines 50-57: cols, rows = map(int, grid_size.lower().split('x')),
guarded by `if not grid_size: raise ValueError`.  The unpacking demands
exactly two parts; a wrong part count or a failing int() raises
ValueError, caught as a parse failure (none).  Positivity is NOT
checked anywhere. -/
def parseGrid (g : String) : Option (ℤ × ℤ) :=
  if g.data.isEmpty then none
  else
    match (splitOnChar 'x' (g.data.map Char.toLower)).map parsePyInt with
    | [some c, some r] => some (c, r)
    | _ => none

example : parseGrid "2x2" = some (2, 2) := by decide
example : parseGrid "3X4" = some (3, 4) := by decide
example : parseGrid "0x2" = some (0, 2) := by decide
example : parseGrid "-1x3" = some (-1, 3) := by decide
example : parseGrid "abc" = none := by decide
example : parseGrid "2x" = none := by decide
example : parseGrid "" = none := by decide
example : parseGrid "2x2x2" = none := by decide
example : parseGrid "1_0x2" = some (10, 2) := by decide
example : parseGrid "1_0_0x2" = some (100, 2) := by decide
example : parseGrid "1__0x2" = none := by decide
example : parseGrid "_1x2" = none := by decide
example : parseGrid "1_x2" = none := by decide
example : parseGrid " 2 x 2 " = some (2, 2) := by decide
example : parseGrid "-1_0x2" = some (-10, 2) := by decide
example : parseGrid "+ 1x2" = none := by decide

/-! ### Decimal rendering, for the f-string field {i+1:02d} (line 78). -/

/-- The character of one decimal digit. -/
def decDigit : ℕ → Char
  | 0 => '0' | 1 => '1' | 2 => '2' | 3 => '3' | 4 => '4'
  | 5 => '5' | 6 => '6' | 7 => '7' | 8 => '8' | _ => '9'

/-- Decimal digits of n, most significant first; fuel-driven so that it
computes by structural recursion (fuel > n always suffices). -/
def toDecCharsAux : ℕ → ℕ → List Char
  | 0, _ => []
  | fuel + 1, n =>
    if n < 10 then [decDigit n]
    else toDecCharsAux fuel (n / 10) ++ [decDigit (n % 10)]

def toDecChars (n : ℕ) : List Char := toDecCharsAux (n + 1) n

/-- Zero-pad to a minimum width of 2, exactly the Python format 02d for
a nonnegative integer: numbers below 10 get one leading zero, larger
numbers keep all their digits. -/
def pad2 (n : ℕ) : List Char :=
  if n < 10 then '0' :: toDecChars n else toDecChars n

/-- Line 78: output_filename = f"{prefix}_{i+1:02d}.{output_extension}",
with i the 0-based page index. -/
def outputFilename (pfx ext : String) (i : ℕ) : String :=
  pfx ++ "_" ++ String.mk (pad2 (i + 1)) ++ "." ++ ext

example : outputFilename "montage" "png" 0 = "montage_01.png" := by decide
example : outputFilename "montage" "png" 99 = "montage_100.png" := by decide

/-! ### Pagination arithmetic (lines 66-76). -/

/-- Line 67: total_pages = math.ceil(total_images / images_per_page),
with Python / exact true division: the ceiling of the rational
n / ipp.  Stated with Rat.divInt and Rat.ceil so that it computes;
totalPages_eq_ceil below proves it is the mathematical ceiling of the
quotient.  create_montages only evaluates this after ruling out
images_per_page = 0 (Python would raise ZeroDivisionError there). -/
def totalPages (n : ℕ) (ipp : ℤ) : ℤ := Rat.ceil (Rat.divInt (n : ℤ) ipp)

/-- Lines 74-76: batch_files = image_files[i*images_per_page :
(i+1)*images_per_page], the i-th page's slice of the sorted list. -/
def pageBatch (imageFiles : List String) (ipp i : ℕ) : List String :=
  (imageFiles.drop (i * ipp)).take ipp

example : totalPages 7 4 = 2 := by decide
example : totalPages 8 4 = 2 := by decide
example : totalPages 9 4 = 3 := by decide
example : totalPages 3 (-2) = -1 := by decide

/-! ### External-command construction (lines 80-98). -/

/-- Lines 80-98, mirroring the imperative appends: start from
["montage"], add the label directive when labels are on, the batch, the
crop directive when crop_dims is truthy (a nonempty string), then the
fixed tail ending in the output filename. -/
def buildCmd (showLabels : Bool) (batch : List String) (crop : Option String)
    (grid geom fontSize outFile : String) : List String :=
  let cmd := ["montage"]
  let cmd := if showLabels then cmd ++ ["-label", "%f"] else cmd
  let cmd := cmd ++ batch
  let cmd :=
    match crop with
    | some s => if s = "" then cmd else cmd ++ ["-gravity", "center", "-crop", s ++ "+0+0"]
    | none => cmd
  cmd ++ ["-tile", grid, "-geometry", geom, "-gravity", "center",
          "-background", "white", "-pointsize", fontSize, outFile]

/-! ### The per-page subprocess loop (lines 73, 100-111). -/

/-- Outcome of one subprocess.run of the external tool. -/
inductive ToolResult
  | success
  | exitNonzero (code : ℤ)
  | notFound
deriving DecidableEq

/-- How one page ended up in the log. -/
inductive PageStatus
  | ok
  | failed (code : ℤ)
deriving DecidableEq

/-- How the whole run ended. -/
inductive RunOutcome
  | configError
  | noImages
  | divByZero
  | toolMissing
  | finished
deriving DecidableEq

/-- Lines 73 and 100-111: run the pages in order.  A nonzero exit is
logged for that page and the loop continues; a missing executable
(FileNotFoundError) returns immediately, attempting no further pages.
Returns the log of completed invocations (page index, command, status)
and the terminal outcome. -/
def runLoop (tool : List String → ToolResult) (mkCmd : ℕ → List String) :
    List ℕ → List (ℕ × List String × PageStatus) × RunOutcome
  | [] => ([], .finished)
  | i :: rest =>
    match tool (mkCmd i) with
    | .success =>
      ((i, mkCmd i, .ok) :: (runLoop tool mkCmd rest).1, (runLoop tool mkCmd rest).2)
    | .exitNonzero c =>
      ((i, mkCmd i, .failed c) :: (runLoop tool mkCmd rest).1, (runLoop tool mkCmd rest).2)
    | .notFound => ([], .toolMissing)

/-- Result of a whole create_montages call. -/
structure RunLog where
  pageLog : List (ℕ × List String × PageStatus)
  outcome : RunOutcome
deriving DecidableEq

/-- The commands actually handed to the external tool, in order. -/
def RunLog.invocations (r : RunLog) : List (List String) :=
  r.pageLog.map (fun e => e.2.1)

/-- create_montages (lines 48-111), with the filesystem scan replaced
by the imageFiles parameter (the sorted result of get_all_images) and
the external tool by the tool oracle.  Order of the guards follows the
source: grid parse (config error on failure), empty image list, then
the division total_images / images_per_page — which in Python raises an
uncaught ZeroDivisionError when images_per_page is 0, modelled as the
divByZero outcome.  The loop range, a nonnegative count, is
(totalPages ..).toNat: math.ceil of a negative quotient is ≤ 0 and
range() of a nonpositive integer is empty, so toNat is exact on every
path, and inside the loop images_per_page is positive whenever any page
runs, so its Nat image ipp.toNat is exact there too. -/
def createMontages (tool : List String → ToolResult) (grid ext geom : String)
    (showLabels : Bool) (pfx : String) (crop : Option String) (fontSize : String)
    (imageFiles : List String) : RunLog :=
  match parseGrid grid with
  | none => ⟨[], .configError⟩
  | some (c, r) =>
    let ipp : ℤ := c * r
    if imageFiles.isEmpty then ⟨[], .noImages⟩
    else if ipp = 0 then ⟨[], .divByZero⟩
    else
      let tp : ℤ := totalPages imageFiles.length ipp
      let mkCmd : ℕ → List String := fun i =>
        buildCmd showLabels (pageBatch imageFiles ipp.toNat i) crop grid geom
          fontSize (outputFilename pfx ext i)
      let res := runLoop tool mkCmd (List.range tp.toNat)
      ⟨res.1, res.2⟩

/-- An external tool that always succeeds, for concrete runs. -/
def toolOk : List String → ToolResult := fun _ => .success

example :
    (createMontages toolOk "2x2" "png" "500x500+10+10" false "montage" none "12"
      ["a.png", "b.png", "c.png", "d.png", "e.png"]).outcome = .finished := by decide
example :
    (createMontages toolOk "abc" "png" "500x500+10+10" false "montage" none "12"
      ["a.png"]).pageLog = [] := by decide
example :
    (createMontages toolOk "0x2" "png" "500x500+10+10" false "montage" none "12"
      ["a.png"]).outcome = .divByZero := by decide

/-! ### The settings resolver (the main block, lines 148-174).
config.ini loading is abstracted into a loadConfig oracle mapping a
preset name to the section's key/value pairs (each key optional, since
a section need not define it; a missing file or section gives the empty
mapping, exactly what load_config returns). -/

/-- The parsed command line.  Every value option defaults to None
(here: none); the label option is a store_true flag. -/
structure CliArgs where
  grid : Option String
  preset : Option String
  ext : Option String
  size : Option String
  label : Bool
  pfx : Option String
  crop : Option String
  fontsize : Option String
deriving DecidableEq

/-- One config.ini section: each recognized key is present or not.
Keys the program never reads are irrelevant and not modelled. -/
structure PresetSection where
  grid : Option String
  ext : Option String
  size : Option String
  pfx : Option String
  crop : Option String
  fontsize : Option String
  labels : Option String
deriving DecidableEq

/-- What load_config returns when config.ini or the section is absent. -/
def emptySection : PresetSection :=
  ⟨none, none, none, none, none, none, none⟩

/-- The final resolved settings; every key has a value (crop's default
is Python None, hence Option). -/
structure Settings where
  grid : String
  ext : String
  size : String
  pfx : String
  crop : Option String
  fontsize : String
  labels : String
deriving DecidableEq

/-- Lines 148-156: the hardcoded defaults dict. -/
def defaultSettings : Settings :=
  { grid := "2x2", ext := "png", size := "500x500+10+10", pfx := "montage",
    crop := none, fontsize := "12", labels := "false" }

/-- Lines 159-161: final_settings.update(preset_config) — every key the
section defines overwrites the default. -/
def applyPreset (s : Settings) (p : PresetSection) : Settings :=
  { grid := p.grid.getD s.grid
    ext := p.ext.getD s.ext
    size := p.size.getD s.size
    pfx := p.pfx.getD s.pfx
    crop := match p.crop with | some v => some v | none => s.crop
    fontsize := p.fontsize.getD s.fontsize
    labels := p.labels.getD s.labels }

/-- One line of the lines 164-169 pattern, if args.X:
final_settings[k] = args.X — the override fires only when the argument
is truthy, i.e. present and nonempty. -/
def cliOverride (cur : String) (arg : Option String) : String :=
  match arg with
  | some v => if v = "" then cur else v
  | none => cur

/-- Line 168 for crop, whose stored value is optional. -/
def cliOverrideOpt (cur : Option String) (arg : Option String) : Option String :=
  match arg with
  | some v => if v = "" then cur else some v
  | none => cur

/-- Lines 163-169: the per-field command-line overrides.  labels has no
value option, so it is untouched here. -/
def applyCli (s : Settings) (a : CliArgs) : Settings :=
  { s with
    grid := cliOverride s.grid a.grid
    ext := cliOverride s.ext a.ext
    size := cliOverride s.size a.size
    pfx := cliOverride s.pfx a.pfx
    crop := cliOverrideOpt s.crop a.crop
    fontsize := cliOverride s.fontsize a.fontsize }

/-- Lines 148-169: defaults, then the preset section if args.preset is
truthy (a present nonempty name), then the command-line overrides. -/
def resolveSettings (a : CliArgs) (loadConfig : String → PresetSection) : Settings :=
  let s0 := defaultSettings
  let s1 :=
    match a.preset with
    | some nm => if nm = "" then s0 else applyPreset s0 (loadConfig nm)
    | none => s0
  applyCli s1 a

/-- Lines 113-116: str_to_bool — s.lower() in ('true','on','yes','1').
The isinstance(s, bool) branch is dead on this call path, where the
value is always a string. -/
def strToBool (s : String) : Bool :=
  s.toLower == "true" || s.toLower == "on" || s.toLower == "yes" || s.toLower == "1"

/-- Lines 171-174: show_labels = args.label or
str_to_bool(final_settings.get('labels', 'false')); the labels key is
always present after resolution, so get never falls back. -/
def resolveShowLabels (a : CliArgs) (loadConfig : String → PresetSection) : Bool :=
  a.label || strToBool (resolveSettings a loadConfig).labels

example :
    resolveSettings
      { grid := none, preset := some "p", ext := none, size := none,
        label := false, pfx := none, crop := none, fontsize := some "24" }
      (fun _ => { emptySection with grid := some "3x3", labels := some "true" })
      = { grid := "3x3", ext := "png", size := "500x500+10+10", pfx := "montage",
          crop := none, fontsize := "24", labels := "true" } := by decide

/-! ### totalPages is the exact ceiling of the rational quotient. -/

/-- E-division of a negated non-multiple: one below the negated
quotient. -/
theorem neg_ediv_not_dvd {n d : ℤ} (hd : 0 < d) (h : ¬ d ∣ n) :
    (-n) / d = -(n / d) - 1 := by
  have h1 := Int.ediv_add_emod n d
  have h2 := Int.ediv_add_emod (-n) d
  have r1a := Int.emod_nonneg n (by omega : d ≠ 0)
  have r1b := Int.emod_lt_of_pos n hd
  have r2a := Int.emod_nonneg (-n) (by omega : d ≠ 0)
  have r2b := Int.emod_lt_of_pos (-n) hd
  have r1z : n % d ≠ 0 := by
    intro hz
    exact h (Int.dvd_of_emod_eq_zero hz)
  have hs : d * (n / d + (-n) / d) = -(n % d + (-n) % d) := by ring_nf; omega
  have hlow : d * (-2) < d * (n / d + (-n) / d) := by rw [hs]; omega
  have hhigh : d * (n / d + (-n) / d) < d * 0 := by rw [hs]; omega
  have l1 : (-2 : ℤ) < n / d + (-n) / d := lt_of_mul_lt_mul_left hlow hd.le
  have l2 : n / d + (-n) / d < 0 := lt_of_mul_lt_mul_left hhigh hd.le
  omega

/-- Batteries' computable Rat.ceil agrees with the order-theoretic
ceiling. -/
theorem ratCeil_eq_intCeil (q : ℚ) : Rat.ceil q = ⌈q⌉ := by
  have hceil : ⌈q⌉ = -⌊-q⌋ := by rw [Int.floor_neg]; ring
  have hfl : ⌊-q⌋ = (-q).num / ((-q).den : ℤ) := Rat.floor_def
  rw [hceil, hfl]
  simp only [Rat.neg_num, Rat.neg_den]
  unfold Rat.ceil
  split
  · rename_i h1
    simp [h1]
  · rename_i h1
    have hd : (0 : ℤ) < (q.den : ℤ) := by exact_mod_cast q.den_pos
    have hnd : ¬ ((q.den : ℤ) ∣ q.num) := by
      intro hdvd
      have hna : q.den ∣ q.num.natAbs := by
        have := Int.natAbs_dvd_natAbs.mpr hdvd
        simpa using this
      have hc : Nat.gcd q.num.natAbs q.den = 1 := q.reduced
      have hone : q.den ∣ 1 := hc ▸ Nat.dvd_gcd hna dvd_rfl
      exact h1 (Nat.dvd_one.mp hone)
    rw [neg_ediv_not_dvd hd hnd]
    ring

/-- totalPages n ipp is exactly math.ceil of the true quotient
n / ipp. -/
theorem totalPages_eq_ceil (n : ℕ) (ipp : ℤ) :
    totalPages n ipp = Int.ceil ((n : ℚ) / (ipp : ℚ)) := by
  rw [totalPages, ratCeil_eq_intCeil, Rat.divInt_eq_div]
  norm_num

/-! ### Ceiling division over ℕ. -/

theorem le_ceilDiv_mul {n p : ℕ} (hp : 0 < p) : n ≤ ((n + p - 1) / p) * p := by
  have h := Nat.div_add_mod (n + p - 1) p
  have hm : (n + p - 1) % p < p := Nat.mod_lt _ hp
  rw [Nat.mul_comm]
  omega

theorem ceilDiv_pred_mul_lt {n p : ℕ} (hp : 0 < p) (hn : 0 < n) :
    ((n + p - 1) / p - 1) * p < n := by
  have h := Nat.div_add_mod (n + p - 1) p
  have hm : (n + p - 1) % p < p := Nat.mod_lt _ hp
  rw [Nat.sub_mul, Nat.mul_comm]
  omega

theorem ceilDiv_pos {n p : ℕ} (hp : 0 < p) (hn : 0 < n) : 0 < (n + p - 1) / p :=
  (Nat.le_div_iff_mul_le hp).mpr (by omega)

/-- The driver's page count, math.ceil(n / p) for a positive p, read
back as a natural number, is the usual ceiling division (n + p - 1) / p. -/
theorem totalPages_toNat {n p : ℕ} (hp : 0 < p) :
    (totalPages n (p : ℤ)).toNat = (n + p - 1) / p := by
  have hq : totalPages n (p : ℤ) = (((n + p - 1) / p : ℕ) : ℤ) := by
    rw [totalPages_eq_ceil, Int.ceil_eq_iff]
    simp only [Int.cast_natCast]
    have hp' : (0 : ℚ) < (p : ℚ) := by exact_mod_cast hp
    constructor
    · rcases Nat.eq_zero_or_pos ((n + p - 1) / p) with hq0 | hq1
      · rw [hq0]
        have hnn : (0 : ℚ) ≤ (n : ℚ) / (p : ℚ) := by positivity
        push_cast
        linarith
      · have hn : 0 < n := by
          by_contra hcon
          have hz : n = 0 := by omega
          subst hz
          have : (0 + p - 1) / p = 0 := Nat.div_eq_of_lt (by omega)
          omega
        have hlt := ceilDiv_pred_mul_lt hp hn
        have hcast : (((n + p - 1) / p : ℕ) : ℚ) - 1 = (((n + p - 1) / p - 1 : ℕ) : ℚ) := by
          push_cast [hq1]
          ring
        rw [hcast, lt_div_iff₀ hp']
        exact_mod_cast hlt
    · rw [div_le_iff₀ hp']
      exact_mod_cast le_ceilDiv_mul hp
  rw [hq]
  exact Int.toNat_natCast _

/-! ### The page slices partition the image list. -/

theorem pageBatch_length (l : List String) (ipp i : ℕ) :
    (pageBatch l ipp i).length = min ipp (l.length - i * ipp) := by
  simp [pageBatch]

theorem pageBatch_zero (l : List String) (ipp : ℕ) :
    pageBatch l ipp 0 = l.take ipp := by
  simp [pageBatch]

theorem pageBatch_succ (l : List String) (ipp i : ℕ) :
    pageBatch l ipp (i + 1) = pageBatch (l.drop ipp) ipp i := by
  unfold pageBatch
  rw [List.drop_drop]
  congr 2
  ring

/-- Concatenating the page slices for pages 0..tp-1 reproduces the
whole list, provided tp pages of ipp entries cover it. -/
theorem join_pageBatches (ipp : ℕ) :
    ∀ (tp : ℕ) (l : List String), l.length ≤ tp * ipp →
      ((List.range tp).map (pageBatch l ipp)).flatten = l := by
  intro tp
  induction tp with
  | zero =>
    intro l h
    simp only [Nat.zero_mul, Nat.le_zero] at h
    simp [List.eq_nil_of_length_eq_zero h]
  | succ tp ih =>
    intro l h
    rw [List.range_succ_eq_map, List.map_cons, List.flatten_cons, List.map_map]
    have hmap :
        (List.range tp).map (pageBatch l ipp ∘ Nat.succ)
          = (List.range tp).map (pageBatch (l.drop ipp) ipp) := by
      apply List.map_congr_left
      intro i _
      exact pageBatch_succ l ipp i
    have hlen : l.length - ipp ≤ tp * ipp := by
      have hexp : (tp + 1) * ipp = tp * ipp + ipp := by ring
      omega
    rw [hmap, ih (l.drop ipp) (by simpa using hlen), pageBatch_zero, List.take_append_drop]

/-! ### The page loop. -/

/-- How a completed invocation is logged, per exit status. -/
def statusOf : ToolResult → PageStatus
  | .success => .ok
  | .exitNonzero c => .failed c
  | .notFound => .ok

theorem runLoop_no_notFound (tool : List String → ToolResult) (mkCmd : ℕ → List String) :
    ∀ idxs : List ℕ, (∀ i ∈ idxs, tool (mkCmd i) ≠ .notFound) →
      runLoop tool mkCmd idxs
        = (idxs.map (fun i => (i, mkCmd i, statusOf (tool (mkCmd i)))), .finished) := by
  intro idxs
  induction idxs with
  | nil => intro _; rfl
  | cons i rest ih =>
    intro h
    have hi := h i (List.mem_cons_self i rest)
    have hrest := fun j hj => h j (List.mem_cons_of_mem i hj)
    cases htool : tool (mkCmd i) with
    | success => simp [runLoop, htool, statusOf, ih hrest]
    | exitNonzero c => simp [runLoop, htool, statusOf, ih hrest]
    | notFound => exact absurd htool hi

theorem runLoop_append_clean (tool : List String → ToolResult) (mkCmd : ℕ → List String)
    (b : List ℕ) :
    ∀ a : List ℕ, (∀ i ∈ a, tool (mkCmd i) ≠ .notFound) →
      runLoop tool mkCmd (a ++ b)
        = ((a.map (fun i => (i, mkCmd i, statusOf (tool (mkCmd i)))))
            ++ (runLoop tool mkCmd b).1,
           (runLoop tool mkCmd b).2) := by
  intro a
  induction a with
  | nil => intro _; simp
  | cons i rest ih =>
    intro h
    have hi := h i (List.mem_cons_self i rest)
    have hrest := fun j hj => h j (List.mem_cons_of_mem i hj)
    show runLoop tool mkCmd (i :: (rest ++ b)) = _
    cases htool : tool (mkCmd i) with
    | success => simp [runLoop, htool, statusOf, ih hrest]
    | exitNonzero c => simp [runLoop, htool, statusOf, ih hrest]
    | notFound => exact absurd htool hi

theorem runLoop_notFound_head (tool : List String → ToolResult) (mkCmd : ℕ → List String)
    (j : ℕ) (rest : List ℕ) (hj : tool (mkCmd j) = .notFound) :
    runLoop tool mkCmd (j :: rest) = ([], .toolMissing) := by
  simp [runLoop, hj]

/-- Unfolding create_montages once the grid has parsed. -/
theorem createMontages_eq_of_parse {grid : String} {c r : ℤ}
    (hparse : parseGrid grid = some (c, r)) (tool : List String → ToolResult)
    (ext geom : String) (lbl : Bool) (pfx : String) (crop : Option String)
    (fs : String) (l : List String) :
    createMontages tool grid ext geom lbl pfx crop fs l
      = if l.isEmpty then ⟨[], .noImages⟩
        else if c * r = 0 then ⟨[], .divByZero⟩
        else
          ⟨(runLoop tool
              (fun i => buildCmd lbl (pageBatch l (c * r).toNat i) crop grid geom fs
                (outputFilename pfx ext i))
              (List.range ((totalPages l.length (c * r)).toNat))).1,
            (runLoop tool
              (fun i => buildCmd lbl (pageBatch l (c * r).toNat i) crop grid geom fs
                (outputFilename pfx ext i))
              (List.range ((totalPages l.length (c * r)).toNat))).2⟩ := by
  unfold createMontages
  rw [hparse]

/-! ### Decimal rendering facts. -/

theorem toDecCharsAux_fuel :
    ∀ f g n : ℕ, n < f → n < g → toDecCharsAux f n = toDecCharsAux g n := by
  intro f
  induction f with
  | zero => intro g n hf; omega
  | succ f ih =>
    intro g n hf hg
    match g, hg with
    | g + 1, hg' =>
      show toDecCharsAux (f + 1) n = toDecCharsAux (g + 1) n
      unfold toDecCharsAux
      by_cases h10 : n < 10
      · simp [h10]
      · simp only [h10, if_false]
        rw [ih g (n / 10) (by omega) (by omega)]

/-- The recursion equation of toDecChars, fuel eliminated. -/
theorem toDecChars_def (n : ℕ) :
    toDecChars n
      = if n < 10 then [decDigit n]
        else toDecChars (n / 10) ++ [decDigit (n % 10)] := by
  show toDecCharsAux (n + 1) n = _
  unfold toDecCharsAux
  by_cases h10 : n < 10
  · simp [h10]
  · simp only [h10, if_false]
    rw [toDecCharsAux_fuel n (n / 10 + 1) (n / 10) (by omega) (by omega)]
    rfl

theorem toDecChars_ne_nil (n : ℕ) : toDecChars n ≠ [] := by
  rw [toDecChars_def]
  by_cases h10 : n < 10 <;> simp [h10]

theorem decDigit_toNat {d : ℕ} (hd : d < 10) : (decDigit d).toNat = 48 + d := by
  interval_cases d <;> rfl

theorem decValue_append_digit (l : List Char) (c : Char) :
    decValue (l ++ [c]) = decValue l * 10 + (c.toNat - 48) := by
  simp [decValue, List.foldl_append]

theorem decValue_cons_zero (l : List Char) : decValue ('0' :: l) = decValue l := rfl

/-- Reading the rendered digits back recovers the number. -/
theorem decValue_toDecChars (n : ℕ) : decValue (toDecChars n) = n := by
  induction n using Nat.strong_induction_on with
  | _ n ih =>
    rw [toDecChars_def]
    by_cases h10 : n < 10
    · simp only [h10, if_true]
      show decValue [decDigit n] = n
      simp [decValue, decDigit_toNat h10]
    · simp only [h10, if_false]
      rw [decValue_append_digit, ih (n / 10) (by omega),
        decDigit_toNat (Nat.mod_lt _ (by omega))]
      omega

theorem decValue_pad2 (n : ℕ) : decValue (pad2 n) = n := by
  unfold pad2
  by_cases h10 : n < 10
  · simp only [h10, if_true]
    rw [decValue_cons_zero]
    exact decValue_toDecChars n
  · simp only [h10, if_false]
    exact decValue_toDecChars n

theorem pad2_injective : Function.Injective pad2 := by
  intro a b h
  have := congrArg decValue h
  rwa [decValue_pad2, decValue_pad2] at this

theorem toDecChars_length_pos (n : ℕ) : 1 ≤ (toDecChars n).length := by
  have h := toDecChars_ne_nil n
  cases hl : toDecChars n with
  | nil => exact absurd hl h
  | cons c t => simp

/-- The padded field always has at least two characters. -/
theorem pad2_length_ge_two (n : ℕ) : 2 ≤ (pad2 n).length := by
  unfold pad2
  by_cases h10 : n < 10
  · simp only [h10, if_true, List.length_cons]
    have := toDecChars_length_pos n
    omega
  · simp only [h10, if_false]
    rw [toDecChars_def]
    simp only [h10, if_false, List.length_append]
    have := toDecChars_length_pos (n / 10)
    simp
    omega

/-- Three-digit-or-more page numbers render with all their digits. -/
theorem pad2_length_ge_three {n : ℕ} (hn : 100 ≤ n) : 3 ≤ (pad2 n).length := by
  unfold pad2
  have h10 : ¬ n < 10 := by omega
  simp only [h10, if_false]
  rw [toDecChars_def]
  simp only [h10, if_false, List.length_append]
  have h10' : ¬ n / 10 < 10 := by omega
  rw [toDecChars_def]
  simp only [h10', if_false, List.length_append]
  have := toDecChars_length_pos (n / 10 / 10)
  simp
  omega

/-! ### Output filename facts. -/

theorem outputFilename_data (pfx ext : String) (i : ℕ) :
    (outputFilename pfx ext i).data
      = pfx.data ++ '_' :: (pad2 (i + 1) ++ '.' :: ext.data) := by
  show pfx.data ++ "_".data ++ pad2 (i + 1) ++ ".".data ++ ext.data = _
  simp

/-- Distinct page indices give distinct output filenames (same prefix
and extension throughout a run). -/
theorem outputFilename_injective (pfx ext : String) {i j : ℕ} (hij : i ≠ j) :
    outputFilename pfx ext i ≠ outputFilename pfx ext j := by
  intro heq
  have hd := congrArg String.data heq
  rw [outputFilename_data, outputFilename_data] at hd
  have h1 := List.append_cancel_left hd
  have h2 : pad2 (i + 1) ++ '.' :: ext.data = pad2 (j + 1) ++ '.' :: ext.data :=
    List.tail_eq_of_cons_eq h1
  have h3 := List.append_cancel_right h2
  have h4 := pad2_injective h3
  omega

/-! ## Claims -/

/-- C1 (amended): for a grid string of ASCII characters — the region
on which the embedded parser is exactly CPython int() after lowercasing
and splitting on the character x, including PEP 515 underscore digit
separators and int()'s whitespace stripping — parsing succeeds exactly
when the string is non-empty and yields two integer parts; positivity
of the parts is NOT required.  Whenever parsing fails (missing
separator, non-numeric part, empty string), the run ends with a
configuration error before any processing, with zero external tool
invocations. -/
theorem c1_grid_parse_failure_aborts (tool : List String → ToolResult)
    (grid ext geom : String) (lbl : Bool) (pfx : String) (crop : Option String)
    (fs : String) (l : List String)
    (hascii : grid.data.all (fun c => c.toNat < 128))
    (hparse : parseGrid grid = none) :
    createMontages tool grid ext geom lbl pfx crop fs l = ⟨[], .configError⟩
      ∧ (createMontages tool grid ext geom lbl pfx crop fs l).invocations = [] := by
  have h : createMontages tool grid ext geom lbl pfx crop fs l = ⟨[], .configError⟩ := by
    unfold createMontages
    rw [hparse]
  exact ⟨h, by rw [h]; rfl⟩

/-- C1 witness: the malformed grids of the spec all abort with a
configuration error and an empty invocation list. -/
theorem c1_witness :
    parseGrid "abc" = none
      ∧ createMontages toolOk "abc" "png" "500x500+10+10" false "montage" none "12"
          ["a.png"] = ⟨[], .configError⟩ :=
  ⟨by decide,
    (c1_grid_parse_failure_aborts toolOk "abc" "png" "500x500+10+10" false "montage"
      none "12" ["a.png"] (by decide) (by decide)).1⟩

/-- C1 counterexample: the claim requires both grid parts to parse as
POSITIVE integers, but the source never checks positivity: "0x2" parses
to (0, 2) and the run does not take the configuration-error path (it
reaches the division by zero instead). -/
theorem c1_counterexample :
    parseGrid "0x2" = some (0, 2)
      ∧ (createMontages toolOk "0x2" "png" "500x500+10+10" false "montage" none "12"
          ["a.png"]).outcome ≠ .configError := by
  constructor
  · decide
  · decide

/-- C9 (confirmed): create_montages never checks the parsed grid parts
for positivity; a grid that parses to two integers whose product is 0,
together with at least one image, drives execution into the expression
math.ceil(total_images / images_per_page) with images_per_page = 0 —
an unguarded ZeroDivisionError outside the try block, not the
configuration-error path, and no external invocation happens. -/
theorem c9_zero_grid_divides_by_zero (tool : List String → ToolResult)
    (grid ext geom : String) (lbl : Bool) (pfx : String) (crop : Option String)
    (fs : String) (l : List String) (c r : ℤ)
    (hparse : parseGrid grid = some (c, r)) (hzero : c * r = 0) (hl : l ≠ []) :
    createMontages tool grid ext geom lbl pfx crop fs l = ⟨[], .divByZero⟩ := by
  rw [createMontages_eq_of_parse hparse]
  have hne : l.isEmpty = false := by
    cases l with
    | nil => exact absurd rfl hl
    | cons a t => rfl
  rw [hne]
  simp [hzero]

/-- C9 witness: grid "0x2" with one image present reaches the division
by zero. -/
theorem c9_witness :
    createMontages toolOk "0x2" "png" "500x500+10+10" false "montage" none "12"
        ["a.png"] = ⟨[], .divByZero⟩ :=
  c9_zero_grid_divides_by_zero toolOk "0x2" "png" "500x500+10+10" false "montage"
    none "12" ["a.png"] 0 2 (by decide) (by decide) (by decide)

/-- Seven image files, the spec's pagination scenario. -/
def sevenFiles : List String :=
  ["a.jpg", "b.jpg", "c.jpg", "d.jpg", "e.jpg", "f.jpg", "g.jpg"]

/-- C3 (confirmed): for a grid parsing to positive C and R, the driver
uses images_per_page = C*R and runs total_pages =
ceil(N / images_per_page) pages: the page log of a run whose tool
always succeeds has exactly that many entries, the page count is the
exact rational ceiling, and it equals the closed form
(N + C*R - 1) / (C*R). -/
theorem c3_pagination_arithmetic (g ext geom : String) (lbl : Bool) (pfx : String)
    (crop : Option String) (fs : String) (l : List String) (c r : ℕ)
    (hparse : parseGrid g = some ((c : ℤ), (r : ℤ))) (hc : 0 < c) (hr : 0 < r)
    (hl : l ≠ []) :
    (createMontages toolOk g ext geom lbl pfx crop fs l).pageLog.length
        = (totalPages l.length ((c : ℤ) * (r : ℤ))).toNat
      ∧ totalPages l.length ((c : ℤ) * (r : ℤ))
          = Int.ceil ((l.length : ℚ) / ((c * r : ℕ) : ℚ))
      ∧ (totalPages l.length ((c : ℤ) * (r : ℤ))).toNat
          = (l.length + c * r - 1) / (c * r) := by
  have hp : 0 < c * r := Nat.mul_pos hc hr
  have hcast : (c : ℤ) * (r : ℤ) = ((c * r : ℕ) : ℤ) := by push_cast; ring
  have hne : l.isEmpty = false := by
    cases l with
    | nil => exact absurd rfl hl
    | cons a t => rfl
  have hz : ¬ ((c : ℤ) * (r : ℤ) = 0) := by
    rw [hcast]
    exact_mod_cast hp.ne'
  refine ⟨?_, ?_, ?_⟩
  · rw [createMontages_eq_of_parse hparse, hne]
    simp only [Bool.false_eq_true, if_false, hz, if_false]
    rw [runLoop_no_notFound toolOk _ _ (fun i _ => by simp [toolOk])]
    simp
  · rw [hcast, totalPages_eq_ceil]
    norm_num
  · rw [hcast]
    exact totalPages_toNat hp

/-- C3 witness: 7 images on a 2x2 grid give 4 images per page and 2
pages. -/
theorem c3_witness :
    (createMontages toolOk "2x2" "png" "500x500+10+10" false "montage" none "12"
        sevenFiles).pageLog.length
        = (totalPages sevenFiles.length (((2 : ℕ) : ℤ) * ((2 : ℕ) : ℤ))).toNat
      ∧ (totalPages sevenFiles.length (((2 : ℕ) : ℤ) * ((2 : ℕ) : ℤ))).toNat = 2 := by
  have h := c3_pagination_arithmetic "2x2" "png" "500x500+10+10" false "montage"
    none "12" sevenFiles 2 2 (by decide) (by decide) (by decide) (by decide)
  exact ⟨h.1, by simpa using h.2.2⟩

/-- C2 (confirmed): for a valid grid (positive C, R) and a nonempty
image list, the page slices form an ordered partition of the list:
every page before the last has exactly images_per_page entries, the
last page has N - images_per_page*(total_pages-1) entries with
1 ≤ length ≤ images_per_page, and concatenating the slices in page
order reproduces the list with no drops, duplicates or reordering. -/
theorem c2_batches_partition (g : String) (c r : ℕ) (l : List String)
    (hparse : parseGrid g = some ((c : ℤ), (r : ℤ))) (hc : 0 < c) (hr : 0 < r)
    (hl : l ≠ []) :
    (∀ i, i < (totalPages l.length ((c : ℤ) * (r : ℤ))).toNat - 1 →
        (pageBatch l (c * r) i).length = c * r)
      ∧ (pageBatch l (c * r)
            ((totalPages l.length ((c : ℤ) * (r : ℤ))).toNat - 1)).length
          = l.length
            - (c * r) * ((totalPages l.length ((c : ℤ) * (r : ℤ))).toNat - 1)
      ∧ 1 ≤ (pageBatch l (c * r)
            ((totalPages l.length ((c : ℤ) * (r : ℤ))).toNat - 1)).length
      ∧ (pageBatch l (c * r)
            ((totalPages l.length ((c : ℤ) * (r : ℤ))).toNat - 1)).length ≤ c * r
      ∧ ((List.range ((totalPages l.length ((c : ℤ) * (r : ℤ))).toNat)).map
          (pageBatch l (c * r))).flatten = l := by
  have hp : 0 < c * r := Nat.mul_pos hc hr
  have hn : 0 < l.length := List.length_pos.mpr hl
  have hcast : (c : ℤ) * (r : ℤ) = ((c * r : ℕ) : ℤ) := by push_cast; ring
  have htp : (totalPages l.length ((c : ℤ) * (r : ℤ))).toNat
      = (l.length + c * r - 1) / (c * r) := by
    rw [hcast]
    exact totalPages_toNat hp
  rw [htp]
  have hA := le_ceilDiv_mul (n := l.length) hp
  have hB := ceilDiv_pred_mul_lt (n := l.length) hp hn
  have hq1 := ceilDiv_pos (n := l.length) hp hn
  have hqp : ((l.length + c * r - 1) / (c * r)) * (c * r)
      = ((l.length + c * r - 1) / (c * r) - 1) * (c * r) + c * r := by
    have h1 : (l.length + c * r - 1) / (c * r)
        = ((l.length + c * r - 1) / (c * r) - 1) + 1 := by omega
    calc ((l.length + c * r - 1) / (c * r)) * (c * r)
        = (((l.length + c * r - 1) / (c * r) - 1) + 1) * (c * r) := by rw [← h1]
      _ = ((l.length + c * r - 1) / (c * r) - 1) * (c * r) + c * r := by ring
  have hcomm : (c * r) * ((l.length + c * r - 1) / (c * r) - 1)
      = ((l.length + c * r - 1) / (c * r) - 1) * (c * r) := Nat.mul_comm _ _
  refine ⟨?_, ?_, ?_, ?_, ?_⟩
  · intro i hi
    have hmul : (i + 1) * (c * r)
        ≤ ((l.length + c * r - 1) / (c * r) - 1) * (c * r) :=
      Nat.mul_le_mul_right _ (by omega)
    have hexp : (i + 1) * (c * r) = i * (c * r) + c * r := by ring
    rw [pageBatch_length]
    omega
  · rw [pageBatch_length]
    omega
  · rw [pageBatch_length]
    omega
  · rw [pageBatch_length]
    omega
  · exact join_pageBatches (c * r) _ l hA

/-- C2 witness: the 7-image, 2x2 scenario — first page of 4, last page
of 3, concatenation reproduces the list. -/
theorem c2_witness :
    (pageBatch sevenFiles (2 * 2) 0).length = 2 * 2
      ∧ (pageBatch sevenFiles (2 * 2)
            ((totalPages sevenFiles.length
              (((2 : ℕ) : ℤ) * ((2 : ℕ) : ℤ))).toNat - 1)).length
          = sevenFiles.length
            - (2 * 2) * ((totalPages sevenFiles.length
              (((2 : ℕ) : ℤ) * ((2 : ℕ) : ℤ))).toNat - 1)
      ∧ ((List.range ((totalPages sevenFiles.length
            (((2 : ℕ) : ℤ) * ((2 : ℕ) : ℤ))).toNat)).map
          (pageBatch sevenFiles (2 * 2))).flatten = sevenFiles := by
  have h := c2_batches_partition "2x2" 2 2 sevenFiles (by decide) (by decide)
    (by decide) (by decide)
  exact ⟨h.1 0 (by decide), h.2.1, h.2.2.2.2⟩

/-- C7 (confirmed): the external command is assembled in the fixed
order: tool name; the label directive exactly when labels are on; the
batch; the crop directive (gravity=center, crop={crop}+0+0) exactly
when the crop string is present and non-empty; then -tile with the grid
string, -geometry, -gravity center, -background white, -pointsize with
the resolved font size string, and the output filename last. -/
theorem c7_command_order (lbl : Bool) (batch : List String) (crop : Option String)
    (grid geom fs out : String) :
    buildCmd lbl batch crop grid geom fs out
      = ["montage"]
        ++ (if lbl then ["-label", "%f"] else [])
        ++ batch
        ++ (match crop with
            | some s => if s = "" then [] else ["-gravity", "center", "-crop", s ++ "+0+0"]
            | none => [])
        ++ ["-tile", grid, "-geometry", geom, "-gravity", "center",
            "-background", "white", "-pointsize", fs, out] := by
  unfold buildCmd
  cases lbl <;> cases crop with
  | none => simp
  | some s =>
    by_cases hs : s = "" <;> simp [hs]

/-- C8 (confirmed): the output filename for 0-based page index i is the
prefix, an underscore, the 1-based page number zero-padded to at least
two digits (three and more digits render in full, no error), a dot,
and the extension; distinct page indices always give distinct
filenames. -/
theorem c8_output_filenames (pfx ext : String) (i j : ℕ) :
    outputFilename pfx ext i
        = pfx ++ "_" ++ String.mk (pad2 (i + 1)) ++ "." ++ ext
      ∧ 2 ≤ (pad2 (i + 1)).length
      ∧ (100 ≤ i + 1 → 3 ≤ (pad2 (i + 1)).length)
      ∧ (i ≠ j → outputFilename pfx ext i ≠ outputFilename pfx ext j) :=
  ⟨rfl, pad2_length_ge_two (i + 1), fun h => pad2_length_ge_three h,
    fun h => outputFilename_injective pfx ext h⟩

/-- C8 witness: page index 99 renders as the three-digit number 100 and
differs from page index 0's filename. -/
theorem c8_witness :
    3 ≤ (pad2 (99 + 1)).length
      ∧ outputFilename "montage" "png" 99 ≠ outputFilename "montage" "png" 0 :=
  ⟨(c8_output_filenames "montage" "png" 99 0).2.2.1 (by decide),
    (c8_output_filenames "montage" "png" 99 0).2.2.2 (by decide)⟩

/-- C6 (confirmed): over n pages, (a) if the tool is never missing, the
loop attempts every page in order — a page whose invocation exits
nonzero is logged as failed via its exit status and the run still
finishes; (b) if the tool is missing at page j (and was not before),
the loop logs exactly the pages before j and stops with toolMissing,
attempting no later page. -/
theorem c6_per_page_errors (tool : List String → ToolResult) (mkCmd : ℕ → List String)
    (n : ℕ) :
    ((∀ i, i < n → tool (mkCmd i) ≠ .notFound) →
        runLoop tool mkCmd (List.range n)
          = ((List.range n).map (fun i => (i, mkCmd i, statusOf (tool (mkCmd i)))),
              .finished))
      ∧ (∀ j, j < n → tool (mkCmd j) = .notFound →
          (∀ k, k < j → tool (mkCmd k) ≠ .notFound) →
          runLoop tool mkCmd (List.range n)
            = ((List.range j).map (fun i => (i, mkCmd i, statusOf (tool (mkCmd i)))),
                .toolMissing)) := by
  constructor
  · intro h
    exact runLoop_no_notFound tool mkCmd (List.range n)
      (fun i hi => h i (List.mem_range.mp hi))
  · intro j hj hnotFound hclean
    have hdecomp : List.range n = List.range j ++ (List.range (n - j)).map (j + ·) := by
      rw [← List.range_add]
      congr 1
      omega
    have htail : List.range (n - j) = 0 :: (List.range (n - j - 1)).map Nat.succ := by
      have hnj : n - j = (n - j - 1) + 1 := by omega
      rw [hnj]
      exact List.range_succ_eq_map (n - j - 1)
    rw [hdecomp, runLoop_append_clean tool mkCmd _ (List.range j)
      (fun i hi => hclean i (List.mem_range.mp hi))]
    rw [htail]
    simp only [List.map_cons, Nat.add_zero]
    rw [runLoop_notFound_head tool mkCmd j _ hnotFound]
    simp

/-- A tool that fails (exit status 1) exactly on the command of page 1. -/
def toolFailPageOne : List String → ToolResult :=
  fun cmd => if cmd = [String.mk (toDecChars 1)] then .exitNonzero 1 else .success

/-- A tool that is never installed. -/
def toolNeverFound : List String → ToolResult := fun _ => .notFound

/-- Page commands for the C6 witness: page i's command is its index. -/
def mkCmdIdx : ℕ → List String := fun i => [String.mk (toDecChars i)]

/-- C6 witness: with a tool failing on page 1 of 3, all three pages are
attempted, page 1 is logged as failed, the run finishes; with the tool
missing from page 0 on, nothing is logged and the run stops. -/
theorem c6_witness :
    runLoop toolFailPageOne mkCmdIdx (List.range 3)
        = ((List.range 3).map
            (fun i => (i, mkCmdIdx i, statusOf (toolFailPageOne (mkCmdIdx i)))),
            .finished)
      ∧ runLoop toolNeverFound mkCmdIdx (List.range 3)
          = ((List.range 0).map
              (fun i => (i, mkCmdIdx i, statusOf (toolNeverFound (mkCmdIdx i)))),
              .toolMissing) :=
  ⟨(c6_per_page_errors toolFailPageOne mkCmdIdx 3).1 (by decide),
    (c6_per_page_errors toolNeverFound mkCmdIdx 3).2 0 (by decide) (by decide)
      (by decide)⟩

/-- C5 (confirmed): the resolved label flag is true exactly when the
command-line flag is set or the resolved labels string, lowercased, is
one of true, on, yes, 1. -/
theorem c5_label_flag (a : CliArgs) (lc : String → PresetSection) :
    resolveShowLabels a lc = true
      ↔ (a.label = true
          ∨ (resolveSettings a lc).labels.toLower ∈ ["true", "on", "yes", "1"]) := by
  simp [resolveShowLabels, strToBool, List.mem_cons, or_assoc]

/-- Spec-side field resolution, following the amended claim's words: a
non-empty command-line value wins; otherwise the preset value when the
section defines the key; otherwise the hardcoded default. -/
def specResolveField (cli presetVal : Option String) (dflt : String) : String :=
  match cli with
  | some v => if v = "" then presetVal.getD dflt else v
  | none => presetVal.getD dflt

/-- Spec-side field resolution for the optional crop field. -/
def specResolveFieldOpt (cli presetVal dflt : Option String) : Option String :=
  match cli with
  | some v =>
    if v = "" then (match presetVal with | some w => some w | none => dflt) else some v
  | none => match presetVal with | some w => some w | none => dflt

theorem resolve_field_generic (cli pv : Option String) (dflt : String) :
    cliOverride (pv.getD dflt) cli = specResolveField cli pv dflt := by
  cases cli with
  | none => rfl
  | some v => by_cases hv : v = "" <;> simp [cliOverride, specResolveField, hv]

theorem resolve_field_generic_opt (cli pv dflt : Option String) :
    cliOverrideOpt (match pv with | some w => some w | none => dflt) cli
      = specResolveFieldOpt cli pv dflt := by
  cases cli with
  | none => rfl
  | some v => by_cases hv : v = "" <;> simp [cliOverrideOpt, specResolveFieldOpt, hv]

/-- C4 (amended): with a preset selected, each individual settings
field resolves independently to the non-empty command-line value when
one is supplied, otherwise to the preset value when the section defines
the key, otherwise to the hardcoded default. -/
theorem c4_field_priority (a : CliArgs) (lc : String → PresetSection) (nm : String)
    (hpre : a.preset = some nm) (hnm : nm ≠ "") :
    (resolveSettings a lc).grid
        = specResolveField a.grid (lc nm).grid defaultSettings.grid
      ∧ (resolveSettings a lc).ext
          = specResolveField a.ext (lc nm).ext defaultSettings.ext
      ∧ (resolveSettings a lc).size
          = specResolveField a.size (lc nm).size defaultSettings.size
      ∧ (resolveSettings a lc).pfx
          = specResolveField a.pfx (lc nm).pfx defaultSettings.pfx
      ∧ (resolveSettings a lc).crop
          = specResolveFieldOpt a.crop (lc nm).crop defaultSettings.crop
      ∧ (resolveSettings a lc).fontsize
          = specResolveField a.fontsize (lc nm).fontsize defaultSettings.fontsize := by
  have e : resolveSettings a lc = applyCli (applyPreset defaultSettings (lc nm)) a := by
    simp [resolveSettings, hpre, hnm]
  rw [e]
  exact ⟨resolve_field_generic _ _ _, resolve_field_generic _ _ _,
    resolve_field_generic _ _ _, resolve_field_generic _ _ _,
    resolve_field_generic_opt _ _ _, resolve_field_generic _ _ _⟩

/-- Arguments exercising all three priority layers for C4. -/
def c4wArgs : CliArgs :=
  { grid := some "4x4", preset := some "p", ext := none, size := some "",
    label := false, pfx := some "mont", crop := some "100x100", fontsize := none }

/-- A preset section for C4 defining grid, ext and fontsize. -/
def c4wLoad : String → PresetSection :=
  fun _ => { emptySection with grid := some "3x3", ext := some "jpg", fontsize := some "24" }

/-- C4 witness: the amended priority applied to a concrete mixed
configuration. -/
theorem c4_witness :
    (resolveSettings c4wArgs c4wLoad).grid
        = specResolveField c4wArgs.grid (c4wLoad "p").grid defaultSettings.grid
      ∧ (resolveSettings c4wArgs c4wLoad).ext
          = specResolveField c4wArgs.ext (c4wLoad "p").ext defaultSettings.ext
      ∧ (resolveSettings c4wArgs c4wLoad).size
          = specResolveField c4wArgs.size (c4wLoad "p").size defaultSettings.size
      ∧ (resolveSettings c4wArgs c4wLoad).pfx
          = specResolveField c4wArgs.pfx (c4wLoad "p").pfx defaultSettings.pfx
      ∧ (resolveSettings c4wArgs c4wLoad).crop
          = specResolveFieldOpt c4wArgs.crop (c4wLoad "p").crop defaultSettings.crop
      ∧ (resolveSettings c4wArgs c4wLoad).fontsize
          = specResolveField c4wArgs.fontsize (c4wLoad "p").fontsize
              defaultSettings.fontsize :=
  c4_field_priority c4wArgs c4wLoad "p" rfl (by decide)

/-- Arguments whose prefix is supplied on the command line as the empty
string. -/
def c4Args : CliArgs :=
  { grid := none, preset := some "p", ext := none, size := none,
    label := false, pfx := some "", crop := none, fontsize := none }

/-- A preset section defining only the prefix. -/
def c4Load : String → PresetSection :=
  fun _ => { emptySection with pfx := some "photos" }

/-- C4 counterexample: the claim says a supplied command-line value
always wins, but a supplied EMPTY string is ignored: with --prefix ''
and a preset prefix "photos", the resolved prefix is "photos", not the
supplied command-line value. -/
theorem c4_counterexample :
    c4Args.pfx = some "" ∧ (resolveSettings c4Args c4Load).pfx = "photos" := by
  constructor
  · rfl
  · decide

/-- C10 (confirmed): a command-line option supplied as the empty string
never overrides: for each value field, resolution with that field at
some "" equals resolution with the field absent. -/
theorem c10_empty_cli_value_ignored (a : CliArgs) (lc : String → PresetSection) :
    (a.grid = some "" → resolveSettings a lc = resolveSettings { a with grid := none } lc)
      ∧ (a.ext = some "" → resolveSettings a lc = resolveSettings { a with ext := none } lc)
      ∧ (a.size = some "" → resolveSettings a lc = resolveSettings { a with size := none } lc)
      ∧ (a.pfx = some "" → resolveSettings a lc = resolveSettings { a with pfx := none } lc)
      ∧ (a.crop = some "" → resolveSettings a lc = resolveSettings { a with crop := none } lc)
      ∧ (a.fontsize = some ""
          → resolveSettings a lc = resolveSettings { a with fontsize := none } lc) := by
  refine ⟨?_, ?_, ?_, ?_, ?_, ?_⟩ <;>
    · intro h
      simp [resolveSettings, applyCli, cliOverride, cliOverrideOpt, h]

/-- Arguments supplying every value option as the empty string. -/
def allEmptyArgs : CliArgs :=
  { grid := some "", preset := some "p", ext := some "", size := some "",
    label := false, pfx := some "", crop := some "", fontsize := some "" }

/-- C10 witness: each empty-string option of allEmptyArgs resolves as
if it were absent. -/
theorem c10_witness :
    resolveSettings allEmptyArgs c4wLoad
        = resolveSettings { allEmptyArgs with grid := none } c4wLoad
      ∧ resolveSettings allEmptyArgs c4wLoad
          = resolveSettings { allEmptyArgs with ext := none } c4wLoad
      ∧ resolveSettings allEmptyArgs c4wLoad
          = resolveSettings { allEmptyArgs with size := none } c4wLoad
      ∧ resolveSettings allEmptyArgs c4wLoad
          = resolveSettings { allEmptyArgs with pfx := none } c4wLoad
      ∧ resolveSettings allEmptyArgs c4wLoad
          = resolveSettings { allEmptyArgs with crop := none } c4wLoad
      ∧ resolveSettings allEmptyArgs c4wLoad
          = resolveSettings { allEmptyArgs with fontsize := none } c4wLoad := by
  have h := c10_empty_cli_value_ignored allEmptyArgs c4wLoad
  exact ⟨h.1 rfl, h.2.1 rfl, h.2.2.1 rfl, h.2.2.2.1 rfl, h.2.2.2.2.1 rfl,
    h.2.2.2.2.2 rfl⟩

end MontageMaker
